import Mathlib

/-!
Verification of the Delhi Public Library client-side behaviour layer
(`src/script.js`).  Each UI controller of the script is shallowly embedded
as a pure state-transition function; DOM classes, ARIA attributes and the
two `localStorage` keys become fields of explicit state records, and every
event handler becomes a step function on those records.
-/

set_option maxRecDepth 4000

/-- JavaScript values that can be passed to `changeFontSize` from markup:
numbers (modelled as integers), strings, booleans, `undefined` and `null`.
Strict equality `===` of the source is `DecidableEq` on this type. -/
inductive JSVal where
  | num : Int → JSVal
  | str : String → JSVal
  | boolean : Bool → JSVal
  | undef : JSVal
  | null : JSVal
deriving DecidableEq, Repr

/-- State touched by the accessibility controller: the two font-size class
markers on `document.documentElement`, the `high-contrast` marker on
`document.body`, the two persisted `localStorage` values (`none` models an
absent key), and the list of screen-reader announcements made so far. -/
structure AccessState where
  fontSmall : Bool
  fontLarge : Bool
  highContrast : Bool
  storedFontSize : Option String
  storedContrast : Option String
  announcements : List String
deriving DecidableEq, Repr

/-- The pristine startup state: no markers applied, nothing persisted. -/
def AccessState.default : AccessState :=
  ⟨false, false, false, none, none, []⟩

/-- Embedding of `announceToScreenReader` (script.js:80): the transient
live-region node is recorded as the announced message. -/
def announceToScreenReader (message : String) (s : AccessState) : AccessState :=
  { s with announcements := s.announcements ++ [message] }

/-- Embedding of `window.changeFontSize` (script.js:39-57): removes both
font-size classes, then branches on strict equality of `direction` with the
numbers `1` and `-1`, persisting the matching string, and finally announces
the change. -/
def changeFontSize (direction : JSVal) (s : AccessState) : AccessState :=
  let s1 := { s with fontSmall := false, fontLarge := false }
  let s2 :=
    if direction = JSVal.num 1 then
      { s1 with fontLarge := true, storedFontSize := some "1" }
    else if direction = JSVal.num (-1) then
      { s1 with fontSmall := true, storedFontSize := some "-1" }
    else
      { s1 with storedFontSize := some "0" }
  announceToScreenReader "Font size changed" s2

/-- JavaScript `parseInt` on a string, as used at script.js:29: skips
leading whitespace, reads an optional sign and then leading decimal digits;
`none` models the `NaN` result when no digits are found. -/
def parseIntJS (input : String) : Option Int :=
  let chars := input.toList.dropWhile (fun c => c = ' ' ∨ c = '\t' ∨ c = '\n' ∨ c = '\r')
  let signAndRest : Int × List Char :=
    match chars with
    | '-' :: rest => (-1, rest)
    | '+' :: rest => (1, rest)
    | rest => (1, rest)
  let digits := signAndRest.2.takeWhile Char.isDigit
  if digits.isEmpty then none
  else some (signAndRest.1 * (digits.foldl (fun acc c => acc * 10 + (c.toNat - '0'.toNat)) 0 : Nat))

/-- Embedding of `applyFontSize` (script.js:59-68).  The argument is the
value `parseInt` produced, so `none` models applying `NaN`: strict equality
with `1` and `-1` both fail and neither marker is added. -/
def applyFontSize (level : Option Int) (s : AccessState) : AccessState :=
  let s1 := { s with fontSmall := false, fontLarge := false }
  if level = some 1 then { s1 with fontLarge := true }
  else if level = some (-1) then { s1 with fontSmall := true }
  else s1

/-- Embedding of `initAccessibility` (script.js:20-36): reads the two
persisted values; a truthy (present, non-empty) font-size string is parsed
with `parseInt` and applied; the contrast marker is added iff the persisted
contrast string is exactly `"true"`. -/
def initAccessibility (s : AccessState) : AccessState :=
  let s1 :=
    match s.storedFontSize with
    | some v => if v ≠ "" then applyFontSize (parseIntJS v) s else s
    | none => s
  if s1.storedContrast = some "true" then { s1 with highContrast := true } else s1

/-- Embedding of `window.toggleContrast` (script.js:71-77): flips the
`high-contrast` marker on the body, persists the string form of the new
boolean, and announces the new mode. -/
def toggleContrast (s : AccessState) : AccessState :=
  let isHighContrast := !s.highContrast
  let s1 := { s with
    highContrast := isHighContrast,
    storedContrast := some (if isHighContrast then "true" else "false") }
  announceToScreenReader
    (if isHighContrast then "High contrast mode enabled" else "High contrast mode disabled") s1

/-- C1: for every direction d in -1, 0, 1, after `changeFontSize d` the
document root carries exactly the font-size marker matching d (small for
-1, large for 1, neither for 0, never both), and the persisted value under
`dpl-font-size` is the string form of d. -/
theorem changeFontSize_in_range_markers_and_store (d : Int) (s : AccessState)
    (hd : d = -1 ∨ d = 0 ∨ d = 1) :
    (changeFontSize (JSVal.num d) s).fontSmall = decide (d = -1) ∧
    (changeFontSize (JSVal.num d) s).fontLarge = decide (d = 1) ∧
    ¬((changeFontSize (JSVal.num d) s).fontSmall = true ∧
      (changeFontSize (JSVal.num d) s).fontLarge = true) ∧
    (changeFontSize (JSVal.num d) s).storedFontSize = some (toString d) := by
  rcases hd with rfl | rfl | rfl <;>
    simp [changeFontSize, announceToScreenReader] <;> decide

/-- Witness for C1: `changeFontSize` at direction 1 from the default state. -/
theorem changeFontSize_in_range_markers_and_store_witness :
    (changeFontSize (JSVal.num 1) AccessState.default).fontSmall = decide ((1 : Int) = -1) ∧
    (changeFontSize (JSVal.num 1) AccessState.default).fontLarge = decide ((1 : Int) = 1) ∧
    ¬((changeFontSize (JSVal.num 1) AccessState.default).fontSmall = true ∧
      (changeFontSize (JSVal.num 1) AccessState.default).fontLarge = true) ∧
    (changeFontSize (JSVal.num 1) AccessState.default).storedFontSize = some (toString (1 : Int)) :=
  changeFontSize_in_range_markers_and_store 1 AccessState.default (by decide)

/-- C3: on startup, an absent or unparseable persisted font-size string
leaves the document root (starting from the pristine startup state) with
neither font-size marker, exactly as level 0 would, and loading is a total
function, so no error is surfaced. -/
theorem initAccessibility_bad_font_size_defaults (s : AccessState)
    (hsmall : s.fontSmall = false) (hlarge : s.fontLarge = false)
    (hbad : s.storedFontSize = none ∨
      ∀ v, s.storedFontSize = some v → parseIntJS v = none) :
    (initAccessibility s).fontSmall = false ∧
    (initAccessibility s).fontLarge = false ∧
    (initAccessibility s).fontSmall = (applyFontSize (some 0) s).fontSmall ∧
    (initAccessibility s).fontLarge = (applyFontSize (some 0) s).fontLarge := by
  have key : (initAccessibility s).fontSmall = false ∧
      (initAccessibility s).fontLarge = false := by
    simp only [initAccessibility]
    rcases hbad with habs | hparse
    · rw [habs]
      split <;> simp [hsmall, hlarge]
    · cases hsf : s.storedFontSize with
      | none =>
        split <;> simp [hsmall, hlarge]
      | some v =>
        have hv := hparse v hsf
        by_cases hne : v ≠ ""
        · simp only [if_pos hne, hv]
          split <;> simp [applyFontSize]
        · simp only [if_neg hne]
          split <;> simp [hsmall, hlarge]
  refine ⟨key.1, key.2, ?_, ?_⟩
  · rw [key.1]; simp [applyFontSize]
  · rw [key.2]; simp [applyFontSize]

/-- Witness for C3: a stored value `"abc"` fails to parse and yields the
marker state of level 0. -/
theorem initAccessibility_bad_font_size_defaults_witness :
    (initAccessibility { AccessState.default with storedFontSize := some "abc" }).fontSmall
      = false ∧
    (initAccessibility { AccessState.default with storedFontSize := some "abc" }).fontLarge
      = false ∧
    (initAccessibility { AccessState.default with storedFontSize := some "abc" }).fontSmall
      = (applyFontSize (some 0) { AccessState.default with storedFontSize := some "abc" }).fontSmall ∧
    (initAccessibility { AccessState.default with storedFontSize := some "abc" }).fontLarge
      = (applyFontSize (some 0) { AccessState.default with storedFontSize := some "abc" }).fontLarge :=
  initAccessibility_bad_font_size_defaults
    { AccessState.default with storedFontSize := some "abc" }
    (by decide) (by decide)
    (Or.inr (by intro v hv; cases hv; decide))

/-- C6: calling `toggleContrast` twice from a state without the
high-contrast marker restores the marker-free state and leaves the
persisted `dpl-high-contrast` value equal to the string false. -/
theorem toggleContrast_twice_from_default (s : AccessState)
    (h : s.highContrast = false) :
    (toggleContrast (toggleContrast s)).highContrast = false ∧
    (toggleContrast (toggleContrast s)).storedContrast = some "false" := by
  simp [toggleContrast, announceToScreenReader, h]

/-- Witness for C6: two toggles from the pristine default state. -/
theorem toggleContrast_twice_from_default_witness :
    (toggleContrast (toggleContrast AccessState.default)).highContrast = false ∧
    (toggleContrast (toggleContrast AccessState.default)).storedContrast = some "false" :=
  toggleContrast_twice_from_default AccessState.default (by decide)

/-- C9: for every argument other than the numbers 1 and -1 (out-of-range
numbers, strings, booleans, undefined, null), `changeFontSize` behaves
exactly as for the number 0: both markers removed, "0" persisted, change
announced. -/
theorem changeFontSize_other_args_act_like_zero (d : JSVal) (s : AccessState)
    (h1 : d ≠ JSVal.num 1) (h2 : d ≠ JSVal.num (-1)) :
    changeFontSize d s = changeFontSize (JSVal.num 0) s := by
  simp [changeFontSize, h1, h2]

/-- Witness for C9: the number 2 and the string "1" both act like 0. -/
theorem changeFontSize_other_args_act_like_zero_witness :
    changeFontSize (JSVal.num 2) AccessState.default
      = changeFontSize (JSVal.num 0) AccessState.default ∧
    changeFontSize (JSVal.str "1") AccessState.default
      = changeFontSize (JSVal.num 0) AccessState.default :=
  ⟨changeFontSize_other_args_act_like_zero (JSVal.num 2) AccessState.default
      (by decide) (by decide),
   changeFontSize_other_args_act_like_zero (JSVal.str "1") AccessState.default
      (by decide) (by decide)⟩

/-- One tab element: the `active` class marker and the `aria-selected`
attribute (`true` iff the attribute value is the string true). -/
structure Tab where
  active : Bool
  selected : Bool
deriving DecidableEq, Repr

/-- User events on one tab group: a click on the tab at a given index, or
an ArrowRight/ArrowLeft key press while the tab at that index is focused
(script.js:218-249). -/
inductive TabEvent where
  | click : Nat → TabEvent
  | arrowRight : Nat → TabEvent
  | arrowLeft : Nat → TabEvent
deriving DecidableEq, Repr

/-- The index of the tab the event happens on. -/
def TabEvent.sourceIndex : TabEvent → Nat
  | .click i => i
  | .arrowRight i => i
  | .arrowLeft i => i

/-- Embedding of the click handler (script.js:218-232): remove `active`
and set `aria-selected="false"` on every tab of the group, then add both
markers to the clicked tab. -/
def tabClick (i : Nat) (g : List Tab) : List Tab :=
  (g.map fun _ => ⟨false, false⟩).set i ⟨true, true⟩

/-- Embedding of the handlers registered by `initTabs` on one group
(script.js:218-249): a click runs the click handler; an arrow key computes
the wrapped target index and clicks it. -/
def stepTab (e : TabEvent) (g : List Tab) : List Tab :=
  match e with
  | .click i => tabClick i g
  | .arrowRight i => tabClick (if i + 1 ≥ g.length then 0 else i + 1) g
  | .arrowLeft i => tabClick (if i = 0 then g.length - 1 else i - 1) g

/-- Run a sequence of events on one tab group.  `initTabs` itself only
registers the handlers and changes no markers, so the group state right
after its run is the markup-provided initial state. -/
def runTabs (es : List TabEvent) (g : List Tab) : List Tab :=
  es.foldl (fun g e => stepTab e g) g

/-- A page is a list of independent tab groups (`.tabs` containers); an
event on group k runs that group's handler and touches no other group. -/
def stepTabPage (k : Nat) (e : TabEvent) (page : List (List Tab)) : List (List Tab) :=
  match page.get? k with
  | some g => page.set k (stepTab e g)
  | none => page

theorem countP_replicate_off (p : Tab → Bool) (hoff : p ⟨false, false⟩ = false) :
    ∀ n, (List.replicate n (⟨false, false⟩ : Tab)).countP p = 0 := by
  intro n
  induction n with
  | zero => simp
  | succ n ih => simp [List.replicate_succ, List.countP_cons, hoff, ih]

theorem countP_set_replicate (p : Tab → Bool) (hoff : p ⟨false, false⟩ = false)
    (hon : p ⟨true, true⟩ = true) :
    ∀ n i, i < n →
      ((List.replicate n (⟨false, false⟩ : Tab)).set i ⟨true, true⟩).countP p = 1 := by
  intro n
  induction n with
  | zero => intro i hi; omega
  | succ n ih =>
    intro i hi
    cases i with
    | zero =>
      simp [List.replicate_succ, List.countP_cons, hon, countP_replicate_off p hoff]
    | succ j =>
      simp [List.replicate_succ, List.countP_cons, hoff, ih j (by omega)]

theorem tabClick_countP (p : Tab → Bool) (hoff : p ⟨false, false⟩ = false)
    (hon : p ⟨true, true⟩ = true) (i : Nat) (g : List Tab) (h : i < g.length) :
    (tabClick i g).countP p = 1 := by
  have hmap : g.map (fun _ => (⟨false, false⟩ : Tab))
      = List.replicate g.length ⟨false, false⟩ := by
    induction g with
    | nil => simp
    | cons a l ihl => simp [List.replicate_succ, ihl]
  rw [tabClick, hmap]
  exact countP_set_replicate p hoff hon g.length i h

theorem tabClick_length (i : Nat) (g : List Tab) :
    (tabClick i g).length = g.length := by
  simp [tabClick]

theorem stepTab_length (e : TabEvent) (g : List Tab) :
    (stepTab e g).length = g.length := by
  cases e <;> simp [stepTab, tabClick_length]

theorem runTabs_length (es : List TabEvent) (g : List Tab) :
    (runTabs es g).length = g.length := by
  induction es generalizing g with
  | nil => rfl
  | cons e es ih => rw [runTabs, List.foldl_cons, ← runTabs, ih, stepTab_length]

theorem stepTab_countP (p : Tab → Bool) (hoff : p ⟨false, false⟩ = false)
    (hon : p ⟨true, true⟩ = true) (e : TabEvent) (g : List Tab)
    (h : e.sourceIndex < g.length) :
    (stepTab e g).countP p = 1 := by
  cases e with
  | click i =>
    exact tabClick_countP p hoff hon i g h
  | arrowRight i =>
    refine tabClick_countP p hoff hon _ g ?_
    simp only [TabEvent.sourceIndex] at h
    split <;> omega
  | arrowLeft i =>
    refine tabClick_countP p hoff hon _ g ?_
    simp only [TabEvent.sourceIndex] at h
    split <;> omega

theorem stepTabPage_get_set_ne (page : List (List Tab)) (k : Nat) (g : List Tab) :
    ∀ j, j ≠ k → (page.set k g).get? j = page.get? j := by
  induction page generalizing k with
  | nil => intro j h; rfl
  | cons a l ih =>
    intro j h
    cases k with
    | zero => cases j with
      | zero => exact absurd rfl h
      | succ j => rfl
    | succ k => cases j with
      | zero => rfl
      | succ j => exact ih k j (by omega)

/-- C2 (amended): within one tab group, after any nonempty sequence of tab
clicks and arrow-key presses on existing tabs, exactly one tab carries both
`aria-selected="true"` and the active marker and no other tab carries
either; and an event on one group never changes any other group.  (The
original claim also covered the empty sequence, which fails: `initTabs`
selects no tab, so a markup-provided group with no pre-selected tab still
has none.) -/
theorem tabs_one_selected_after_nonempty_events (es : List TabEvent) (g0 : List Tab)
    (hne : es ≠ []) (hvalid : ∀ e ∈ es, e.sourceIndex < g0.length) :
    ((runTabs es g0).countP fun t => t.selected && t.active) = 1 ∧
    ((runTabs es g0).countP fun t => t.selected || t.active) = 1 ∧
    ∀ (page : List (List Tab)) (k : Nat) (e : TabEvent) (j : Nat), j ≠ k →
      (stepTabPage k e page).get? j = page.get? j := by
  have hind : ∀ (page : List (List Tab)) (k : Nat) (e : TabEvent) (j : Nat), j ≠ k →
      (stepTabPage k e page).get? j = page.get? j := by
    intro page k e j hj
    unfold stepTabPage
    cases hg : page.get? k with
    | none => rfl
    | some g => exact stepTabPage_get_set_ne page k (stepTab e g) j hj
  rcases List.eq_nil_or_concat es with rfl | ⟨es', e, rfl⟩
  · exact absurd rfl hne
  · rw [List.concat_eq_append] at hvalid ⊢
    have hrun : runTabs (es' ++ [e]) g0 = stepTab e (runTabs es' g0) := by
      rw [runTabs, List.foldl_append]
      rfl
    have hmem : e ∈ es' ++ [e] := List.mem_append_right es' (List.mem_singleton.mpr rfl)
    have hlen : e.sourceIndex < (runTabs es' g0).length := by
      rw [runTabs_length]
      exact hvalid e hmem
    refine ⟨?_, ?_, hind⟩
    · rw [hrun]
      exact stepTab_countP _ rfl rfl e _ hlen
    · rw [hrun]
      exact stepTab_countP _ rfl rfl e _ hlen

/-- Witness for C2 (amended): one click on tab 0 of a two-tab group with
no pre-selected tab leaves exactly one selected-and-active tab. -/
theorem tabs_one_selected_after_nonempty_events_witness :
    ((runTabs [TabEvent.click 0] [⟨false, false⟩, ⟨false, false⟩]).countP
        fun t => t.selected && t.active) = 1 ∧
    ((runTabs [TabEvent.click 0] [⟨false, false⟩, ⟨false, false⟩]).countP
        fun t => t.selected || t.active) = 1 :=
  ⟨(tabs_one_selected_after_nonempty_events [TabEvent.click 0]
      [⟨false, false⟩, ⟨false, false⟩] (by simp)
      (by intro e he; rw [List.mem_singleton] at he; subst he; decide)).1,
   (tabs_one_selected_after_nonempty_events [TabEvent.click 0]
      [⟨false, false⟩, ⟨false, false⟩] (by simp)
      (by intro e he; rw [List.mem_singleton] at he; subst he; decide)).2.1⟩

/-- Counterexample to C2 as stated: after the empty event sequence, a
two-tab group whose markup pre-selects no tab has zero tabs with
`aria-selected="true"` and the active marker, not exactly one. -/
theorem tabs_empty_sequence_counterexample :
    ¬ (((runTabs [] [⟨false, false⟩, ⟨false, false⟩]).countP
        fun t => t.selected && t.active) = 1) := by
  decide

/-- State of the mobile menu overlay: the `active` class on `.mobile-menu`,
its `aria-hidden` attribute (`none` models an attribute the markup never
set), `aria-expanded` on the menu button, and `body.style.overflow`. -/
structure MenuState where
  menuActive : Bool
  menuAriaHidden : Option String
  btnAriaExpanded : Option String
  bodyOverflow : String
deriving DecidableEq, Repr

/-- Events handled by `initNavigation` for the mobile menu: a click on the
menu button, a click on the close button, an Escape key press, and a click
whose target is the menu container itself (the backdrop). -/
inductive MenuEvent where
  | btnClick
  | closeClick
  | escapeKey
  | backdropClick
deriving DecidableEq, Repr

/-- Embedding of `closeMobileMenu` (script.js:136-142). -/
def closeMobileMenu (s : MenuState) : MenuState :=
  { s with
    menuActive := false, menuAriaHidden := some "true",
    btnAriaExpanded := some "false", bodyOverflow := "" }

/-- Embedding of the mobile-menu handlers (script.js:103-133): the button
click opens the menu; close and backdrop clicks close it; Escape closes it
only while the `active` class is present. -/
def stepMenu (e : MenuEvent) (s : MenuState) : MenuState :=
  match e with
  | .btnClick =>
    { s with
      menuActive := true, menuAriaHidden := some "false",
      btnAriaExpanded := some "true", bodyOverflow := "hidden" }
  | .closeClick => closeMobileMenu s
  | .escapeKey => if s.menuActive then closeMobileMenu s else s
  | .backdropClick => closeMobileMenu s

/-- Run a sequence of mobile-menu events. -/
def runMenu (es : List MenuEvent) (s : MenuState) : MenuState :=
  es.foldl (fun s e => stepMenu e s) s

/-- Whether an event performs an open or close transition of the menu:
every event does except an Escape press while the menu is closed, whose
handler does nothing. -/
def menuTransition (e : MenuEvent) (s : MenuState) : Bool :=
  match e with
  | .escapeKey => s.menuActive
  | _ => true

/-- The C4 agreement invariant for the menu: the `active` class is present
iff `aria-hidden` is the string false, and absent iff it is the string
true. -/
def menuAgrees (s : MenuState) : Prop :=
  (s.menuActive = true ↔ s.menuAriaHidden = some "false") ∧
  (s.menuActive = false ↔ s.menuAriaHidden = some "true")

/-- State of the search overlay: the `active` class on `.search-overlay`,
its `aria-hidden` attribute, and `body.style.overflow`. -/
structure SearchState where
  searchActive : Bool
  searchAriaHidden : Option String
  bodyOverflow : String
deriving DecidableEq, Repr

/-- Events handled by `initSearch`: toggle click, close click, Escape key,
backdrop click. -/
inductive SearchEvent where
  | toggleClick
  | closeClick
  | escapeKey
  | backdropClick
deriving DecidableEq, Repr

/-- Embedding of `closeSearch` (script.js:200-205). -/
def closeSearch (s : SearchState) : SearchState :=
  { s with searchActive := false, searchAriaHidden := some "true", bodyOverflow := "" }

/-- Embedding of the search-overlay handlers (script.js:171-198). -/
def stepSearch (e : SearchEvent) (s : SearchState) : SearchState :=
  match e with
  | .toggleClick =>
    { s with
      searchActive := true, searchAriaHidden := some "false",
      bodyOverflow := "hidden" }
  | .closeClick => closeSearch s
  | .escapeKey => if s.searchActive then closeSearch s else s
  | .backdropClick => closeSearch s

/-- Run a sequence of search-overlay events. -/
def runSearch (es : List SearchEvent) (s : SearchState) : SearchState :=
  es.foldl (fun s e => stepSearch e s) s

/-- Whether an event performs an open or close transition of the search
overlay. -/
def searchTransition (e : SearchEvent) (s : SearchState) : Bool :=
  match e with
  | .escapeKey => s.searchActive
  | _ => true

/-- The C4 agreement invariant for the search overlay. -/
def searchAgrees (s : SearchState) : Prop :=
  (s.searchActive = true ↔ s.searchAriaHidden = some "false") ∧
  (s.searchActive = false ↔ s.searchAriaHidden = some "true")

instance (s : MenuState) : Decidable (menuAgrees s) :=
  inferInstanceAs (Decidable
    ((s.menuActive = true ↔ s.menuAriaHidden = some "false") ∧
     (s.menuActive = false ↔ s.menuAriaHidden = some "true")))

instance (s : SearchState) : Decidable (searchAgrees s) :=
  inferInstanceAs (Decidable
    ((s.searchActive = true ↔ s.searchAriaHidden = some "false") ∧
     (s.searchActive = false ↔ s.searchAriaHidden = some "true")))

theorem stepMenu_preserves_agrees (e : MenuEvent) (s : MenuState)
    (h : menuAgrees s) : menuAgrees (stepMenu e s) := by
  cases e with
  | btnClick => simp [stepMenu, menuAgrees]
  | closeClick => simp [stepMenu, closeMobileMenu, menuAgrees]
  | escapeKey =>
    by_cases ha : s.menuActive
    · simp [stepMenu, closeMobileMenu, menuAgrees, ha]
    · have hstep : stepMenu MenuEvent.escapeKey s = s := by simp [stepMenu, ha]
      rw [hstep]
      exact h
  | backdropClick => simp [stepMenu, closeMobileMenu, menuAgrees]

theorem stepSearch_preserves_agrees (e : SearchEvent) (s : SearchState)
    (h : searchAgrees s) : searchAgrees (stepSearch e s) := by
  cases e with
  | toggleClick => simp [stepSearch, searchAgrees]
  | closeClick => simp [stepSearch, closeSearch, searchAgrees]
  | escapeKey =>
    by_cases ha : s.searchActive
    · simp [stepSearch, closeSearch, searchAgrees, ha]
    · have hstep : stepSearch SearchEvent.escapeKey s = s := by simp [stepSearch, ha]
      rw [hstep]
      exact h
  | backdropClick => simp [stepSearch, closeSearch, searchAgrees]

/-- C4: for both the mobile menu and the search overlay, immediately after
every open or close transition the `active` class and the `aria-hidden`
attribute agree (class present iff the attribute is the string false,
absent iff it is the string true), and the agreement, once established, is
preserved by every later event, so it holds at every observable instant of
any event sequence. -/
theorem overlays_class_and_aria_hidden_agree :
    (∀ (s : MenuState) (e : MenuEvent), menuTransition e s = true →
      menuAgrees (stepMenu e s)) ∧
    (∀ (s : MenuState) (es : List MenuEvent), menuAgrees s →
      menuAgrees (runMenu es s)) ∧
    (∀ (s : SearchState) (e : SearchEvent), searchTransition e s = true →
      searchAgrees (stepSearch e s)) ∧
    (∀ (s : SearchState) (es : List SearchEvent), searchAgrees s →
      searchAgrees (runSearch es s)) := by
  refine ⟨?_, ?_, ?_, ?_⟩
  · intro s e he
    cases e with
    | btnClick => simp [stepMenu, menuAgrees]
    | closeClick => simp [stepMenu, closeMobileMenu, menuAgrees]
    | escapeKey =>
      have : s.menuActive = true := he
      simp [stepMenu, closeMobileMenu, menuAgrees, this]
    | backdropClick => simp [stepMenu, closeMobileMenu, menuAgrees]
  · intro s es h
    induction es generalizing s with
    | nil => exact h
    | cons e es ih =>
      rw [runMenu, List.foldl_cons, ← runMenu]
      exact ih _ (stepMenu_preserves_agrees e s h)
  · intro s e he
    cases e with
    | toggleClick => simp [stepSearch, searchAgrees]
    | closeClick => simp [stepSearch, closeSearch, searchAgrees]
    | escapeKey =>
      have : s.searchActive = true := he
      simp [stepSearch, closeSearch, searchAgrees, this]
    | backdropClick => simp [stepSearch, closeSearch, searchAgrees]
  · intro s es h
    induction es generalizing s with
    | nil => exact h
    | cons e es ih =>
      rw [runSearch, List.foldl_cons, ← runSearch]
      exact ih _ (stepSearch_preserves_agrees e s h)

/-- Witness for C4: opening the menu from a fresh markup state establishes
agreement, and agreement survives a later Escape-then-open sequence; same
for the search overlay. -/
theorem overlays_class_and_aria_hidden_agree_witness :
    menuAgrees (stepMenu MenuEvent.btnClick ⟨false, none, none, ""⟩) ∧
    menuAgrees (runMenu [MenuEvent.escapeKey, MenuEvent.btnClick]
      ⟨true, some "false", some "true", "hidden"⟩) ∧
    searchAgrees (stepSearch SearchEvent.toggleClick ⟨false, none, ""⟩) ∧
    searchAgrees (runSearch [SearchEvent.escapeKey, SearchEvent.toggleClick]
      ⟨true, some "false", "hidden"⟩) :=
  ⟨overlays_class_and_aria_hidden_agree.1 ⟨false, none, none, ""⟩ MenuEvent.btnClick (by decide),
   overlays_class_and_aria_hidden_agree.2.1 ⟨true, some "false", some "true", "hidden"⟩
     [MenuEvent.escapeKey, MenuEvent.btnClick] (by decide),
   overlays_class_and_aria_hidden_agree.2.2.1 ⟨false, none, ""⟩ SearchEvent.toggleClick
     (by decide),
   overlays_class_and_aria_hidden_agree.2.2.2 ⟨true, some "false", "hidden"⟩
     [SearchEvent.escapeKey, SearchEvent.toggleClick] (by decide)⟩

/-- JavaScript rounding used by `Number.prototype.toFixed`: nearest
integer, ties toward the larger value, for the nonnegative values produced
here. -/
def jsRoundHalfUp (q : ℚ) : Int := (q + 1/2).floor

/-- Model of `(x).toFixed(1)` for the nonnegative values produced by the
counter: the rounded tenths rendered with one decimal place. -/
def toFixed1 (q : ℚ) : String :=
  let n := jsRoundHalfUp (q * 10)
  toString (n / 10) ++ "." ++ toString (n % 10)

/-- Model of `(x).toFixed(0)` for the nonnegative values produced by the
counter. -/
def toFixed0 (q : ℚ) : String := toString (jsRoundHalfUp q)

/-- The number-formatting block of the counter tick (script.js:310-317):
targets of at least one million are divided by 1000000 and shown with one
decimal and "M+"; targets of at least one thousand are divided by 1000 and
shown with zero decimals and "K+"; otherwise the floor of the running
value is shown. -/
def formatCounter (target : Int) (current : ℚ) : String :=
  if target ≥ 1000000 then toFixed1 (current / 1000000) ++ "M+"
  else if target ≥ 1000 then toFixed0 (current / 1000) ++ "K+"
  else toString current.floor

/-- State of one animated counter: the running value, whether the interval
timer is still installed, and the element's rendered text. -/
structure CounterState where
  current : ℚ
  timerActive : Bool
  text : String
deriving DecidableEq, Repr

/-- The state right after `animateCounter` starts (script.js:297-303):
`current = 0`, timer installed, element text not yet rewritten. -/
def counterStart : CounterState := ⟨0, true, ""⟩

/-- Embedding of one interval callback of `animateCounter`
(script.js:303-318) for a declared integer target: while the timer is
installed, add `target / (2000 / 16)` to the running value; on reaching or
exceeding the target, clamp to the exact target and clear the timer; then
render the formatted text.  A cleared timer receives no further ticks. -/
def counterTick (target : Int) (s : CounterState) : CounterState :=
  if s.timerActive then
    let c := s.current + (target : ℚ) / 125
    if c ≥ (target : ℚ) then
      ⟨(target : ℚ), false, formatCounter target ((target : ℚ))⟩
    else
      ⟨c, true, formatCounter target c⟩
  else s

/-- The counter state after a given number of timer ticks. -/
def runCounter (target : Int) : Nat → CounterState
  | 0 => counterStart
  | n + 1 => counterTick target (runCounter target n)

theorem ratFloor_eq_floor (q : ℚ) : q.floor = ⌊q⌋ := by
  rw [Rat.floor_def', Rat.floor_def]

theorem counterTick_stopped (target : Int) (s : CounterState)
    (h : s.timerActive = false) : counterTick target s = s := by
  simp [counterTick, h]

theorem runCounter_stopped_state (target : Int) :
    ∀ n, (runCounter target n).timerActive = false →
      (runCounter target n).current = (target : ℚ) ∧
      (runCounter target n).text = formatCounter target ((target : ℚ)) := by
  intro n
  induction n with
  | zero => intro h; exact absurd h (by simp [runCounter, counterStart])
  | succ n ih =>
    intro h
    rw [runCounter] at h ⊢
    cases hprev : (runCounter target n).timerActive with
    | false =>
      rw [counterTick_stopped target _ hprev] at h ⊢
      exact ih h
    | true =>
      rw [counterTick, if_pos hprev] at h ⊢
      by_cases hge : (runCounter target n).current + (target : ℚ) / 125 ≥ (target : ℚ)
      · rw [if_pos hge] at h ⊢
        exact ⟨rfl, rfl⟩
      · rw [if_neg hge] at h
        exact absurd h (by simp)

theorem counter_progress (target : Int) (ht : 0 < target) :
    ∀ k, k < 125 →
      (runCounter target k).timerActive = true ∧
      (runCounter target k).current = (k : ℚ) * (target : ℚ) / 125 := by
  have htq : (0 : ℚ) < (target : ℚ) := by exact_mod_cast ht
  intro k
  induction k with
  | zero => intro _; constructor <;> simp [runCounter, counterStart]
  | succ k ih =>
    intro hk
    have hk' : k < 125 := by omega
    rcases ih hk' with ⟨hact, hcur⟩
    have hsum : (runCounter target k).current + (target : ℚ) / 125
        = ((k : ℚ) + 1) * (target : ℚ) / 125 := by
      rw [hcur]; ring
    have hlt : ((k : ℚ) + 1) * (target : ℚ) / 125 < (target : ℚ) := by
      rw [div_lt_iff₀ (by norm_num : (0 : ℚ) < 125)]
      have hklt : ((k : ℚ) + 1) < 125 := by
        have : (k : ℚ) + 1 = ((k + 1 : ℕ) : ℚ) := by push_cast; ring
        rw [this]
        exact_mod_cast hk
      calc ((k : ℚ) + 1) * (target : ℚ)
          < 125 * (target : ℚ) := by
            exact mul_lt_mul_of_pos_right hklt htq
        _ = (target : ℚ) * 125 := by ring
    have hnot : ¬ ((runCounter target k).current + (target : ℚ) / 125 ≥ (target : ℚ)) := by
      rw [hsum]
      exact not_le.mpr hlt
    rw [runCounter, counterTick, if_pos hact, if_neg hnot]
    refine ⟨rfl, ?_⟩
    show (runCounter target k).current + (target : ℚ) / 125 = _
    rw [hsum]
    push_cast
    ring

theorem counter_stops_pos (target : Int) (ht : 0 < target) :
    (runCounter target 125).timerActive = false := by
  rcases counter_progress target ht 124 (by omega) with ⟨hact, hcur⟩
  have hsum : (runCounter target 124).current + (target : ℚ) / 125 = (target : ℚ) := by
    rw [hcur]; ring
  have hge : (runCounter target 124).current + (target : ℚ) / 125 ≥ (target : ℚ) := by
    rw [hsum]
  show (counterTick target (runCounter target 124)).timerActive = false
  rw [counterTick, if_pos hact, if_pos hge]

theorem counter_stops_nonpos (target : Int) (ht : target ≤ 0) :
    (runCounter target 1).timerActive = false := by
  have htq : (target : ℚ) ≤ 0 := by exact_mod_cast ht
  show (counterTick target counterStart).timerActive = false
  simp only [counterTick, counterStart]
  split
  · split
    · rfl
    · next hlt =>
      exfalso
      apply hlt
      show (0 : ℚ) + (target : ℚ) / 125 ≥ (target : ℚ)
      rw [zero_add, ge_iff_le]
      linarith
  · next hfalse => exact absurd trivial hfalse

theorem counter_stays_stopped (target : Int) (n : Nat)
    (h : (runCounter target n).timerActive = false) :
    ∀ m, n ≤ m → (runCounter target m).timerActive = false := by
  intro m hm
  induction m with
  | zero =>
    have : n = 0 := by omega
    rw [← this]; exact h
  | succ m ih =>
    by_cases hnm : n ≤ m
    · have hstop := ih hnm
      rw [runCounter, counterTick_stopped target _ hstop]
      exact hstop
    · have : n = m + 1 := by omega
      rw [← this]; exact h

theorem counter_final_2500000 : (runCounter 2500000 125).text = "2.5M+" := by
  have hstop := counter_stops_pos 2500000 (by norm_num)
  rw [(runCounter_stopped_state 2500000 125 hstop).2]
  simp only [formatCounter]
  rw [if_pos (by norm_num : (2500000 : Int) ≥ 1000000)]
  simp only [toFixed1]
  have hn : jsRoundHalfUp (((2500000 : Int) : ℚ) / 1000000 * 10) = 25 := by
    rw [jsRoundHalfUp, ratFloor_eq_floor]
    have harith : ((2500000 : Int) : ℚ) / 1000000 * 10 + 1 / 2 = 51 / 2 := by norm_num
    rw [harith, Int.floor_eq_iff]
    constructor <;> norm_num
  rw [hn]
  decide

theorem counter_final_3400 : (runCounter 3400 125).text = "3K+" := by
  have hstop := counter_stops_pos 3400 (by norm_num)
  rw [(runCounter_stopped_state 3400 125 hstop).2]
  simp only [formatCounter]
  rw [if_neg (by norm_num : ¬((3400 : Int) ≥ 1000000))]
  rw [if_pos (by norm_num : (3400 : Int) ≥ 1000)]
  simp only [toFixed0]
  have hn : jsRoundHalfUp (((3400 : Int) : ℚ) / 1000) = 3 := by
    rw [jsRoundHalfUp, ratFloor_eq_floor]
    have harith : ((3400 : Int) : ℚ) / 1000 + 1 / 2 = 39 / 10 := by norm_num
    rw [harith, Int.floor_eq_iff]
    constructor <;> norm_num
  rw [hn]
  decide

theorem counter_final_42 : (runCounter 42 125).text = "42" := by
  have hstop := counter_stops_pos 42 (by norm_num)
  rw [(runCounter_stopped_state 42 125 hstop).2]
  simp only [formatCounter]
  rw [if_neg (by norm_num : ¬((42 : Int) ≥ 1000000))]
  rw [if_neg (by norm_num : ¬((42 : Int) ≥ 1000))]
  rw [ratFloor_eq_floor, Int.floor_intCast]
  decide

/-- C5: when the counter animation finishes (the running value reaches the
target, is clamped to it, and the timer is cleared), the rendered text is
the format of the exact target: "2.5M+" for 2500000, "3K+" for 3400, "42"
for 42; and in general targets of at least one million are divided by
1000000 with one decimal and "M+", targets of at least one thousand by
1000 with zero decimals and "K+", and smaller targets show the integer
floor of the progress value, which at completion is the target itself. -/
theorem animateCounter_final_text (t : Int) (n : Nat)
    (h : (runCounter t n).timerActive = false) :
    (runCounter t n).current = (t : ℚ) ∧
    (runCounter t n).text = formatCounter t ((t : ℚ)) ∧
    (runCounter 2500000 125).text = "2.5M+" ∧
    (runCounter 3400 125).text = "3K+" ∧
    (runCounter 42 125).text = "42" ∧
    (1000000 ≤ t → formatCounter t ((t : ℚ)) = toFixed1 ((t : ℚ) / 1000000) ++ "M+") ∧
    (1000 ≤ t → t < 1000000 → formatCounter t ((t : ℚ)) = toFixed0 ((t : ℚ) / 1000) ++ "K+") ∧
    (t < 1000 → formatCounter t ((t : ℚ)) = toString t) := by
  refine ⟨(runCounter_stopped_state t n h).1, (runCounter_stopped_state t n h).2,
    counter_final_2500000, counter_final_3400, counter_final_42, ?_, ?_, ?_⟩
  · intro ht
    simp only [formatCounter]
    rw [if_pos ht]
  · intro ht1 ht2
    simp only [formatCounter]
    rw [if_neg (by omega : ¬(t ≥ 1000000)), if_pos ht1]
  · intro ht
    simp only [formatCounter]
    rw [if_neg (by omega : ¬(t ≥ 1000000)), if_neg (by omega : ¬(t ≥ 1000))]
    rw [ratFloor_eq_floor, Int.floor_intCast]

/-- Witness for C5: the counter with target 2500000 is stopped after 125
ticks and its final text is the formatted exact target, "2.5M+". -/
theorem animateCounter_final_text_witness :
    (runCounter 2500000 125).current = ((2500000 : Int) : ℚ) ∧
    (runCounter 2500000 125).text = "2.5M+" :=
  ⟨(animateCounter_final_text 2500000 125 (counter_stops_pos 2500000 (by norm_num))).1,
   (animateCounter_final_text 2500000 125 (counter_stops_pos 2500000 (by norm_num))).2.2.1⟩

/-- Binary64 significand-bit count of a natural number, computed with a
structural fuel argument (the number itself bounds the recursion depth). -/
def bitLenAux : Nat → Nat → Nat
  | 0, _ => 0
  | fuel + 1, n => if n = 0 then 0 else bitLenAux fuel (n / 2) + 1

/-- The number of binary digits of a natural number (0 for 0). -/
def bitLength (n : Nat) : Nat := bitLenAux n n

theorem bitLenAux_zero (fuel : Nat) : bitLenAux fuel 0 = 0 := by
  cases fuel <;> simp [bitLenAux]

theorem bitLenAux_spec : ∀ (fuel n : Nat), n ≤ fuel → 1 ≤ n →
    2 ^ (bitLenAux fuel n - 1) ≤ n ∧ n < 2 ^ bitLenAux fuel n ∧ 1 ≤ bitLenAux fuel n := by
  intro fuel
  induction fuel with
  | zero => intro n h1 h2; omega
  | succ fuel ih =>
    intro n hle hone
    rw [bitLenAux, if_neg (by omega : ¬ n = 0)]
    by_cases h2 : n / 2 = 0
    · have hn1 : n = 1 := by omega
      subst hn1
      rw [h2, bitLenAux_zero]
      norm_num
    · have hrec : n / 2 ≤ fuel := by omega
      have hrec1 : 1 ≤ n / 2 := by omega
      obtain ⟨hlo, hhi, hpos⟩ := ih (n / 2) hrec hrec1
      set r := bitLenAux fuel (n / 2) with hr
      refine ⟨?_, ?_, by omega⟩
      · have : 2 ^ (r + 1 - 1) = 2 * 2 ^ (r - 1) := by
          rw [Nat.add_sub_cancel]
          rcases Nat.exists_eq_add_of_le hpos with ⟨k, hk⟩
          rw [hk]
          rw [Nat.add_comm 1 k, Nat.add_sub_cancel]
          rw [pow_succ]
          ring
        rw [this]
        omega
      · have : 2 ^ (r + 1) = 2 * 2 ^ r := by rw [pow_succ]; ring
        rw [this]
        omega

theorem bitLength_spec (n : Nat) (h : 1 ≤ n) :
    2 ^ (bitLength n - 1) ≤ n ∧ n < 2 ^ bitLength n ∧ 1 ≤ bitLength n :=
  bitLenAux_spec n n (le_refl n) h

theorem bitLength_le_of_lt (n k : Nat) (h : n < 2 ^ k) : bitLength n ≤ k := by
  by_cases h0 : n = 0
  · subst h0; simp [bitLength, bitLenAux]
  · obtain ⟨hlo, _, hpos⟩ := bitLength_spec n (by omega)
    by_contra hgt
    push_neg at hgt
    have : 2 ^ k ≤ 2 ^ (bitLength n - 1) := Nat.pow_le_pow_right (by omega) (by omega)
    omega

/-- A dyadic rational `m * 2 ^ e`, the value set of IEEE-754 binary64
numbers away from overflow and underflow.  Every value the counter loop
produces for the targets considered here lies in the normal range, where
binary64 arithmetic is exactly rounding to 53 significant bits. -/
structure Dyadic where
  m : Int
  e : Int
deriving DecidableEq, Repr

/-- Round a positive dyadic `n * 2 ^ e` to 53 significant bits, nearest,
ties to even: values of at most 53 bits are exact; otherwise the low
`sh` bits are compared against the halfway point. -/
def roundPos53 (n : Nat) (e : Int) : Dyadic :=
  let L := bitLength n
  if L ≤ 53 then ⟨(n : Int), e⟩
  else
    let sh := L - 53
    let q := n / 2 ^ sh
    let r := n % 2 ^ sh
    let half := 2 ^ (sh - 1)
    let q' := if half < r ∨ (r = half ∧ q % 2 = 1) then q + 1 else q
    ⟨(q' : Int), e + sh⟩

/-- Round the dyadic `a * 2 ^ e` to 53 significant bits, the binary64
rounding of IEEE-754 round-to-nearest in the normal range; rounding is
symmetric in the sign. -/
def round53 (a : Int) (e : Int) : Dyadic :=
  if a = 0 then ⟨0, 0⟩
  else if a < 0 then
    let r := roundPos53 a.natAbs e
    ⟨-r.m, r.e⟩
  else roundPos53 a.natAbs e

/-- Binary64 addition: round the exact dyadic sum. -/
def fladd (x y : Dyadic) : Dyadic :=
  if x.e ≤ y.e then round53 (x.m + y.m * 2 ^ (y.e - x.e).toNat) x.e
  else round53 (x.m * 2 ^ (x.e - y.e).toNat + y.m) y.e

/-- Binary64 division of an integer by a positive integer: scale the
dividend, divide with remainder, fold the remainder into a sticky bit
below the rounding position, and round to 53 bits. -/
def fldiv (t : Int) (d : Nat) : Dyadic :=
  if t = 0 then ⟨0, 0⟩
  else
    let n := t.natAbs
    let k := 54 + bitLength d
    let q := n * 2 ^ k / d
    let r := n * 2 ^ k % d
    let qs : Int := 2 * q + (if r = 0 then 0 else 1)
    let rounded := round53 qs (-(k : Int) - 1)
    if t < 0 then ⟨-rounded.m, rounded.e⟩ else rounded

/-- Binary64 division of a dyadic by a positive integer: scaling by a
power of two is exact and commutes with rounding. -/
def fldivD (x : Dyadic) (d : Nat) : Dyadic :=
  let r := fldiv x.m d
  ⟨r.m, r.e + x.e⟩

/-- Value comparison of dyadics by cross-scaling to a common exponent. -/
def Dyadic.le (x y : Dyadic) : Bool :=
  if x.e ≤ y.e then x.m ≤ y.m * 2 ^ (y.e - x.e).toNat
  else x.m * 2 ^ (x.e - y.e).toNat ≤ y.m

/-- State of one animated counter under binary64 arithmetic: the running
double and whether the interval timer is still installed. -/
structure FCounterState where
  current : Dyadic
  timerActive : Bool
deriving DecidableEq, Repr

/-- One interval callback of `animateCounter` (script.js:303-308) under
the program's binary64 arithmetic: the stored target is the double
`parseInt` produced, the step is the double quotient `target / 125`
(`duration / 16` is exactly 125), `current += step` rounds the sum, and
reaching or exceeding the target clamps `current` to the target double
and clears the timer. -/
def fCounterTick (target : Int) (s : FCounterState) : FCounterState :=
  let targetD := round53 target 0
  let step := fldivD targetD 125
  if s.timerActive then
    let c := fladd s.current step
    if Dyadic.le targetD c then ⟨targetD, false⟩ else ⟨c, true⟩
  else s

/-- The binary64 counter state after a given number of timer ticks,
starting from `current = 0` with the timer installed. -/
def runFCounter (target : Int) : Nat → FCounterState
  | 0 => ⟨⟨0, 0⟩, true⟩
  | n + 1 => fCounterTick target (runFCounter target n)

theorem fCounterTick_stopped (target : Int) (s : FCounterState)
    (h : s.timerActive = false) : fCounterTick target s = s := by
  simp [fCounterTick, h]

theorem fcounter_stays_stopped (target : Int) (n : Nat)
    (h : (runFCounter target n).timerActive = false) :
    ∀ m, n ≤ m → (runFCounter target m).timerActive = false := by
  intro m hm
  induction m with
  | zero =>
    have : n = 0 := by omega
    rw [← this]; exact h
  | succ m ih =>
    by_cases hnm : n ≤ m
    · have hstop := ih hnm
      rw [runFCounter, fCounterTick_stopped target _ hstop]
      exact hstop
    · have : n = m + 1 := by omega
      rw [← this]; exact h

/-- The rational value of a dyadic. -/
def Dyadic.toQ (x : Dyadic) : ℚ := (x.m : ℚ) * (2 : ℚ) ^ x.e

theorem two_zpow_pos (e : Int) : (0 : ℚ) < (2 : ℚ) ^ e :=
  zpow_pos (by norm_num) e

theorem two_zpow_add (e : Int) (s : Nat) :
    (2 : ℚ) ^ (e + (s : Int)) = (2 : ℚ) ^ e * ((2 ^ s : ℕ) : ℚ) := by
  rw [zpow_add₀ (by norm_num : (2:ℚ) ≠ 0), zpow_natCast]
  push_cast
  ring

theorem roundPos53_ge (n : Nat) (e : Int) (hn : 1 ≤ n) :
    ((n : ℚ) * (2 : ℚ) ^ e) * (1 - 1 / 2 ^ 53) ≤ (roundPos53 n e).toQ := by
  obtain ⟨hlo, hhi, hLpos⟩ := bitLength_spec n hn
  have h2e : (0 : ℚ) < (2 : ℚ) ^ e := two_zpow_pos e
  have hnQ : (0 : ℚ) < (n : ℚ) := by exact_mod_cast hn
  simp only [roundPos53, Dyadic.toQ]
  set L := bitLength n with hLdef
  set sh := L - 53 with hsh
  set q := n / 2 ^ sh with hq
  set r := n % 2 ^ sh with hr
  split
  case isTrue hsm =>
    push_cast
    nlinarith [mul_pos hnQ h2e]
  case isFalse hbig =>
    push_neg at hbig
    have hsh1 : 1 ≤ sh := by omega
    have hdm : 2 ^ sh * q + r = n := Nat.div_add_mod n (2 ^ sh)
    have hrlt : r < 2 ^ sh := Nat.mod_lt n (by positivity)
    have hhalf : 2 * 2 ^ (sh - 1) = 2 ^ sh := by
      rcases Nat.exists_eq_add_of_le hsh1 with ⟨k, hk⟩
      rw [hk]
      rw [Nat.add_comm 1 k, Nat.add_sub_cancel]
      rw [pow_succ]
      ring
    have hLsh : L - 1 = sh + 52 := by omega
    have hnlo : 2 ^ sh * 2 ^ 52 ≤ n := by
      calc 2 ^ sh * 2 ^ 52 = 2 ^ (sh + 52) := by rw [pow_add]
        _ = 2 ^ (L - 1) := by rw [hLsh]
        _ ≤ n := hlo
    split
    case isTrue hup =>
      rw [two_zpow_add]
      push_cast
      have key : (n : ℚ) ≤ ((q : ℚ) + 1) * (2 : ℚ) ^ sh := by
        have h1 : n ≤ (q + 1) * 2 ^ sh := by
          calc n = 2 ^ sh * q + r := hdm.symm
            _ ≤ 2 ^ sh * q + 2 ^ sh := by omega
            _ = (q + 1) * 2 ^ sh := by ring
        exact_mod_cast h1
      nlinarith [mul_pos hnQ h2e, mul_le_mul_of_nonneg_right key (le_of_lt h2e)]
    case isFalse hdown =>
      push_neg at hdown
      have hrle : r ≤ 2 ^ (sh - 1) := hdown.1
      rw [two_zpow_add]
      push_cast
      have hdmQ : (2 : ℚ) ^ sh * (q : ℚ) + (r : ℚ) = (n : ℚ) := by exact_mod_cast hdm
      have hrleQ : (r : ℚ) ≤ (2 : ℚ) ^ (sh - 1) := by exact_mod_cast hrle
      have hhalfQ : 2 * (2 : ℚ) ^ (sh - 1) = (2 : ℚ) ^ sh := by exact_mod_cast hhalf
      have hnloQ : (2 : ℚ) ^ sh * 2 ^ 52 ≤ (n : ℚ) := by exact_mod_cast hnlo
      have key : (n : ℚ) * (1 - 1 / 2 ^ 53) ≤ (q : ℚ) * (2 : ℚ) ^ sh := by
        nlinarith [hdmQ, hrleQ, hhalfQ, hnloQ]
      nlinarith [mul_le_mul_of_nonneg_right key (le_of_lt h2e)]

theorem natAbs_cast_of_pos (a : Int) (ha : 1 ≤ a) : ((a.natAbs : ℕ) : ℚ) = (a : ℚ) := by
  have h : (a.natAbs : ℤ) = a := Int.natAbs_of_nonneg (by omega)
  calc ((a.natAbs : ℕ) : ℚ) = ((a.natAbs : ℤ) : ℚ) := (Int.cast_natCast _).symm
    _ = (a : ℚ) := by rw [h]

theorem round53_ge_pos (a : Int) (e : Int) (ha : 1 ≤ a) :
    ((a : ℚ) * (2 : ℚ) ^ e) * (1 - 1 / 2 ^ 53) ≤ (round53 a e).toQ := by
  rw [round53, if_neg (by omega : ¬ a = 0), if_neg (by omega : ¬ a < 0)]
  have h := roundPos53_ge a.natAbs e (by omega)
  rw [natAbs_cast_of_pos a ha] at h
  exact h

theorem round53_small_pos (a : Int) (e : Int) (h1 : 1 ≤ a) (h53 : a < 2 ^ 53) :
    round53 a e = ⟨a, e⟩ := by
  rw [round53, if_neg (by omega : ¬ a = 0), if_neg (by omega : ¬ a < 0)]
  rw [roundPos53]
  have hlt : a.natAbs < 2 ^ 53 := by omega
  rw [if_pos (bitLength_le_of_lt a.natAbs 53 hlt)]
  congr 1
  omega

theorem dyadic_align (x y : Dyadic) (h : x.e ≤ y.e) :
    ((x.m + y.m * 2 ^ (y.e - x.e).toNat : ℤ) : ℚ) * (2 : ℚ) ^ x.e = x.toQ + y.toQ := by
  have hk : ((y.e - x.e).toNat : ℤ) = y.e - x.e := Int.toNat_of_nonneg (by omega)
  rw [Dyadic.toQ, Dyadic.toQ]
  push_cast
  rw [add_mul]
  congr 1
  rw [mul_assoc]
  congr 1
  rw [← zpow_natCast (2 : ℚ) (y.e - x.e).toNat, ← zpow_add₀ (by norm_num : (2:ℚ) ≠ 0)]
  congr 1
  omega

theorem round53_zero (e : Int) : round53 0 e = ⟨0, 0⟩ := by
  rw [round53, if_pos rfl]

theorem round53_ge_nonneg (a : Int) (e : Int) (ha : 0 ≤ a) :
    ((a : ℚ) * (2 : ℚ) ^ e) * (1 - 1 / 2 ^ 53) ≤ (round53 a e).toQ := by
  rcases eq_or_lt_of_le ha with hz | hpos
  · rw [← hz, round53_zero]
    show (0 : ℚ) * _ * _ ≤ (0 : ℚ) * _
    norm_num
  · exact round53_ge_pos a e (by omega)

theorem fladd_ge (x y : Dyadic) (hx : 0 ≤ x.toQ) (hy : 0 ≤ y.toQ) :
    (x.toQ + y.toQ) * (1 - 1 / 2 ^ 53) ≤ (fladd x y).toQ := by
  rw [fladd]
  split
  case isTrue h =>
    have halign := dyadic_align x y h
    have hM : 0 ≤ x.m + y.m * 2 ^ (y.e - x.e).toNat := by
      by_contra hneg
      push_neg at hneg
      have hMQ : ((x.m + y.m * 2 ^ (y.e - x.e).toNat : ℤ) : ℚ) < 0 := by exact_mod_cast hneg
      nlinarith [two_zpow_pos x.e, halign]
    calc (x.toQ + y.toQ) * (1 - 1 / 2 ^ 53)
        = (((x.m + y.m * 2 ^ (y.e - x.e).toNat : ℤ) : ℚ) * (2 : ℚ) ^ x.e) * (1 - 1 / 2 ^ 53) := by
          rw [halign]
      _ ≤ _ := round53_ge_nonneg _ x.e hM
  case isFalse h =>
    have h' : y.e ≤ x.e := by omega
    have halign := dyadic_align y x h'
    have hM : 0 ≤ x.m * 2 ^ (x.e - y.e).toNat + y.m := by
      by_contra hneg
      push_neg at hneg
      have hMQ : ((x.m * 2 ^ (x.e - y.e).toNat + y.m : ℤ) : ℚ) < 0 := by exact_mod_cast hneg
      rw [show (x.m * 2 ^ (x.e - y.e).toNat + y.m : ℤ)
          = (y.m + x.m * 2 ^ (x.e - y.e).toNat : ℤ) by ring] at hMQ
      nlinarith [two_zpow_pos y.e, halign]
    calc (x.toQ + y.toQ) * (1 - 1 / 2 ^ 53)
        = (((y.m + x.m * 2 ^ (x.e - y.e).toNat : ℤ) : ℚ) * (2 : ℚ) ^ y.e) * (1 - 1 / 2 ^ 53) := by
          rw [halign]; ring_nf
      _ = (((x.m * 2 ^ (x.e - y.e).toNat + y.m : ℤ) : ℚ) * (2 : ℚ) ^ y.e) * (1 - 1 / 2 ^ 53) := by
          ring_nf
      _ ≤ _ := round53_ge_nonneg _ y.e hM

theorem dyadic_le_iff (x y : Dyadic) : Dyadic.le x y = true ↔ x.toQ ≤ y.toQ := by
  rw [Dyadic.le]
  split
  case isTrue h =>
    rw [decide_eq_true_eq]
    have halign := dyadic_align x y h
    constructor
    · intro hle
      have hleQ : (x.m : ℚ) ≤ ((y.m * 2 ^ (y.e - x.e).toNat : ℤ) : ℚ) := by exact_mod_cast hle
      have := mul_le_mul_of_nonneg_right hleQ (le_of_lt (two_zpow_pos x.e))
      calc x.toQ = (x.m : ℚ) * (2 : ℚ) ^ x.e := rfl
        _ ≤ ((y.m * 2 ^ (y.e - x.e).toNat : ℤ) : ℚ) * (2 : ℚ) ^ x.e := this
        _ = y.toQ := by
            have h0 := dyadic_align ⟨0, x.e⟩ y h
            simp only [Dyadic.toQ] at h0 ⊢
            push_cast at h0 ⊢
            linarith [h0]
    · intro hle
      have key : ((x.m : ℤ) : ℚ) * (2 : ℚ) ^ x.e
          ≤ ((y.m * 2 ^ (y.e - x.e).toNat : ℤ) : ℚ) * (2 : ℚ) ^ x.e := by
        have h0 := dyadic_align ⟨0, x.e⟩ y h
        simp only [Dyadic.toQ] at h0 hle ⊢
        push_cast at h0 hle ⊢
        linarith [h0]
      have h2 := le_of_mul_le_mul_right key (two_zpow_pos x.e)
      exact_mod_cast h2
  case isFalse h =>
    rw [decide_eq_true_eq]
    have h' : y.e ≤ x.e := by omega
    constructor
    · intro hle
      have hleQ : ((x.m * 2 ^ (x.e - y.e).toNat : ℤ) : ℚ) ≤ (y.m : ℚ) := by exact_mod_cast hle
      have := mul_le_mul_of_nonneg_right hleQ (le_of_lt (two_zpow_pos y.e))
      have h0 := dyadic_align ⟨0, y.e⟩ x h'
      simp only [Dyadic.toQ] at h0 ⊢
      push_cast at h0 this ⊢
      linarith [h0]
    · intro hle
      have key : ((x.m * 2 ^ (x.e - y.e).toNat : ℤ) : ℚ) * (2 : ℚ) ^ y.e
          ≤ ((y.m : ℤ) : ℚ) * (2 : ℚ) ^ y.e := by
        have h0 := dyadic_align ⟨0, y.e⟩ x h'
        simp only [Dyadic.toQ] at h0 hle ⊢
        push_cast at h0 hle ⊢
        linarith [h0]
      have h2 := le_of_mul_le_mul_right key (two_zpow_pos y.e)
      exact_mod_cast h2

theorem two_pow_cast (k : Nat) : ((2 ^ k : ℕ) : ℚ) = (2 : ℚ) ^ k := by
  push_cast
  ring

theorem zpow_neg_k (k : Nat) :
    (2 : ℚ) ^ (-(k : Int) - 1) = 1 / (2 * (2 : ℚ) ^ k) := by
  rw [← zpow_natCast (2 : ℚ) k]
  rw [show (-(k : Int) - 1) = -((k : Int) + 1) by ring]
  rw [zpow_neg]
  rw [zpow_add_one₀ (by norm_num : (2 : ℚ) ≠ 0)]
  rw [one_div]
  rw [mul_comm]

theorem fldiv_ge (t : Int) (d : Nat) (ht : 1 ≤ t) (hd : 1 ≤ d) :
    ((t : ℚ) / (d : ℚ)) * (1 - 1 / 2 ^ 52) ≤ (fldiv t d).toQ := by
  simp only [fldiv]
  rw [if_neg (by omega : ¬ t = 0), if_neg (by omega : ¬ t < 0)]
  set n := t.natAbs with hn
  set k := 54 + bitLength d with hk
  set q := n * 2 ^ k / d with hq
  set r := n * 2 ^ k % d with hr
  have hn1 : 1 ≤ n := by omega
  have hdm : d * q + r = n * 2 ^ k := Nat.div_add_mod (n * 2 ^ k) d
  have hrlt : r < d := Nat.mod_lt _ (by omega)
  have hq54 : 2 ^ 54 ≤ q := by
    rw [hq, Nat.le_div_iff_mul_le (by omega : 0 < d)]
    have hB := (bitLength_spec d hd).2.1
    set B := 2 ^ bitLength d with hB0
    have hkB : 2 ^ k = 2 ^ 54 * B := by rw [hk, pow_add]
    have hnk : 2 ^ k ≤ n * 2 ^ k := Nat.le_mul_of_pos_left _ (by omega)
    omega
  -- rational quantities
  have hDpos : (0 : ℚ) < (d : ℚ) := by exact_mod_cast hd
  have hPpos : (0 : ℚ) < (2 : ℚ) ^ k := by positivity
  have hNpos : (0 : ℚ) < (n : ℚ) := by exact_mod_cast hn1
  have hdmQ : (d : ℚ) * (q : ℚ) + (r : ℚ) = (n : ℚ) * (2 : ℚ) ^ k := by
    rw [← two_pow_cast]
    exact_mod_cast hdm
  have hrltQ : (r : ℚ) ≤ (d : ℚ) - 1 := by
    have : r + 1 ≤ d := hrlt
    have h2 : ((r : ℕ) : ℚ) + 1 ≤ (d : ℚ) := by exact_mod_cast this
    linarith
  have hq54Q : (2 ^ 54 : ℚ) ≤ (q : ℚ) := by exact_mod_cast hq54
  have hRnn : (0 : ℚ) ≤ (r : ℚ) := by positivity
  have htn : (t : ℚ) = (n : ℚ) := (natAbs_cast_of_pos t ht).symm
  -- the sticky-extended quotient is at least (n/d) * (1 - 2⁻⁵⁵) in value
  have hqs1 : (1 : ℤ) ≤ 2 * (q : ℤ) + (if r = 0 then 0 else 1) := by
    have : (2 ^ 54 : ℤ) ≤ (q : ℤ) := by exact_mod_cast hq54
    split <;> omega
  have hG1 : ((n : ℚ) / (d : ℚ)) * (1 - 1 / 2 ^ 55) ≤
      (((2 * (q : ℤ) + (if r = 0 then 0 else 1) : ℤ)) : ℚ) * (2 : ℚ) ^ (-(k : Int) - 1) := by
    rw [zpow_neg_k]
    rw [div_mul_eq_mul_div, mul_one_div,
      div_le_div_iff₀ hDpos (by positivity : (0 : ℚ) < 2 * (2 : ℚ) ^ k)]
    by_cases hr0 : r = 0
    · rw [hr0] at hdmQ
      push_cast at hdmQ
      simp only [hr0, if_pos rfl]
      push_cast
      have hqpos : (0 : ℚ) < (q : ℚ) := lt_of_lt_of_le (by norm_num) hq54Q
      nlinarith [hdmQ, mul_pos hDpos hqpos]
    · simp only [if_neg hr0]
      push_cast
      have hDQ : (d : ℚ) * (2 ^ 54 : ℚ) ≤ (d : ℚ) * (q : ℚ) :=
        mul_le_mul_of_nonneg_left hq54Q (le_of_lt hDpos)
      nlinarith [hdmQ, hrltQ, hDQ, hPpos, hNpos]
  -- combine with the rounding bound
  have hround := round53_ge_pos (2 * (q : ℤ) + (if r = 0 then 0 else 1)) (-(k : Int) - 1) hqs1
  have hstep : ((n : ℚ) / (d : ℚ)) * (1 - 1 / 2 ^ 52) ≤
      (round53 (2 * (q : ℤ) + (if r = 0 then 0 else 1)) (-(k : Int) - 1)).toQ := by
    have hnd : (0 : ℚ) < (n : ℚ) / (d : ℚ) := by positivity
    have hc : ((n : ℚ) / (d : ℚ)) * (1 - 1 / 2 ^ 52) ≤
        (((n : ℚ) / (d : ℚ)) * (1 - 1 / 2 ^ 55)) * (1 - 1 / 2 ^ 53) := by
      nlinarith [hnd]
    calc ((n : ℚ) / (d : ℚ)) * (1 - 1 / 2 ^ 52)
        ≤ (((n : ℚ) / (d : ℚ)) * (1 - 1 / 2 ^ 55)) * (1 - 1 / 2 ^ 53) := hc
      _ ≤ ((((2 * (q : ℤ) + (if r = 0 then 0 else 1) : ℤ)) : ℚ) * (2 : ℚ) ^ (-(k : Int) - 1))
            * (1 - 1 / 2 ^ 53) := by
          apply mul_le_mul_of_nonneg_right hG1
          norm_num
      _ ≤ _ := hround
  rw [htn]
  exact hstep

theorem fldivD_toQ (x : Dyadic) (d : Nat) :
    (fldivD x d).toQ = (fldiv x.m d).toQ * (2 : ℚ) ^ x.e := by
  rw [fldivD, Dyadic.toQ, Dyadic.toQ]
  rw [zpow_add₀ (by norm_num : (2 : ℚ) ≠ 0)]
  ring

theorem toQ_int (a : Int) : (Dyadic.mk a 0).toQ = (a : ℚ) := by
  rw [Dyadic.toQ]
  norm_num

theorem step_ge (t : Int) (ht : 1 ≤ t) :
    ((t : ℚ) / 125) * (1 - 1 / 2 ^ 52) ≤ (fldivD ⟨t, 0⟩ 125).toQ := by
  rw [fldivD_toQ]
  show _ ≤ (fldiv t 125).toQ * (2 : ℚ) ^ (0 : ℤ)
  rw [zpow_zero, mul_one]
  have h := fldiv_ge t 125 ht (by norm_num)
  have hc : ((125 : ℕ) : ℚ) = (125 : ℚ) := by norm_num
  rw [hc] at h
  exact h

theorem step_nonneg (t : Int) (ht : 1 ≤ t) : 0 ≤ (fldivD ⟨t, 0⟩ 125).toQ := by
  have h := step_ge t ht
  have htQ : (0 : ℚ) < (t : ℚ) := by exact_mod_cast ht
  nlinarith [h, htQ]

theorem fCounterTick_active (t : Int) (s : FCounterState) (h : s.timerActive = true) :
    fCounterTick t s =
      if Dyadic.le (round53 t 0) (fladd s.current (fldivD (round53 t 0) 125))
      then ⟨round53 t 0, false⟩
      else ⟨fladd s.current (fldivD (round53 t 0) 125), true⟩ := by
  simp only [fCounterTick, h]
  rfl

theorem fcounter_lower_bound (t : Int) (h1 : 1 ≤ t) (h53 : t < 2 ^ 53) :
    ∀ k : Nat, (runFCounter t k).timerActive = true →
      0 ≤ (runFCounter t k).current.toQ ∧
      ((k : ℚ) * (fldivD ⟨t, 0⟩ 125).toQ) * (1 - 1 / 2 ^ 53) ^ k
        ≤ (runFCounter t k).current.toQ := by
  have hT : round53 t 0 = (⟨t, 0⟩ : Dyadic) := round53_small_pos t 0 h1 h53
  have hs_nn : 0 ≤ (fldivD ⟨t, 0⟩ 125).toQ := step_nonneg t h1
  intro k
  induction k with
  | zero =>
    intro _
    constructor
    · show (0 : ℚ) ≤ (Dyadic.mk 0 0).toQ
      rw [toQ_int]
      norm_num
    · show _ ≤ (Dyadic.mk 0 0).toQ
      rw [toQ_int]
      push_cast
      norm_num
  | succ k ih =>
    intro hact
    have hactk : (runFCounter t k).timerActive = true := by
      by_contra hfalse
      have hstop : (runFCounter t k).timerActive = false := by
        cases hb : (runFCounter t k).timerActive
        · rfl
        · exact absurd hb hfalse
      rw [runFCounter, fCounterTick_stopped t _ hstop, hstop] at hact
      exact Bool.false_ne_true hact
    obtain ⟨hnn, hbound⟩ := ih hactk
    rw [runFCounter, fCounterTick_active t _ hactk, hT] at hact ⊢
    by_cases hle : Dyadic.le (⟨t, 0⟩ : Dyadic)
        (fladd (runFCounter t k).current (fldivD ⟨t, 0⟩ 125)) = true
    · rw [if_pos hle] at hact
      exact absurd hact (by simp)
    · rw [if_neg hle] at hact ⊢
      show 0 ≤ (fladd (runFCounter t k).current (fldivD ⟨t, 0⟩ 125)).toQ ∧ _
      have hfl := fladd_ge (runFCounter t k).current (fldivD ⟨t, 0⟩ 125) hnn hs_nn
      have hA0 : (0 : ℚ) ≤ 1 - 1 / 2 ^ 53 := by norm_num
      have hA1 : (1 - 1 / 2 ^ 53 : ℚ) ≤ 1 := by norm_num
      constructor
      · nlinarith [hfl, hnn, hs_nn]
      · have hsum : ((k : ℚ) * (fldivD ⟨t, 0⟩ 125).toQ) * (1 - 1 / 2 ^ 53) ^ k
              + (fldivD ⟨t, 0⟩ 125).toQ
            ≤ (runFCounter t k).current.toQ + (fldivD ⟨t, 0⟩ 125).toQ :=
          add_le_add_right hbound _
        have hmul := mul_le_mul_of_nonneg_right hsum hA0
        have hpow : (1 - 1 / 2 ^ 53 : ℚ) ^ (k + 1) ≤ (1 - 1 / 2 ^ 53 : ℚ) ^ 1 :=
          pow_le_pow_of_le_one hA0 hA1 (by omega)
        have hstep : (fldivD ⟨t, 0⟩ 125).toQ * (1 - 1 / 2 ^ 53) ^ (k + 1)
            ≤ (fldivD ⟨t, 0⟩ 125).toQ * (1 - 1 / 2 ^ 53) := by
          have := mul_le_mul_of_nonneg_left hpow hs_nn
          calc (fldivD ⟨t, 0⟩ 125).toQ * (1 - 1 / 2 ^ 53) ^ (k + 1)
              ≤ (fldivD ⟨t, 0⟩ 125).toQ * (1 - 1 / 2 ^ 53) ^ 1 := this
            _ = (fldivD ⟨t, 0⟩ 125).toQ * (1 - 1 / 2 ^ 53) := by ring
        calc (((k + 1 : ℕ) : ℚ) * (fldivD ⟨t, 0⟩ 125).toQ) * (1 - 1 / 2 ^ 53) ^ (k + 1)
            = ((k : ℚ) * (fldivD ⟨t, 0⟩ 125).toQ) * ((1 - 1 / 2 ^ 53) ^ k * (1 - 1 / 2 ^ 53))
              + (fldivD ⟨t, 0⟩ 125).toQ * (1 - 1 / 2 ^ 53) ^ (k + 1) := by
              push_cast
              ring
          _ ≤ ((k : ℚ) * (fldivD ⟨t, 0⟩ 125).toQ) * ((1 - 1 / 2 ^ 53) ^ k * (1 - 1 / 2 ^ 53))
              + (fldivD ⟨t, 0⟩ 125).toQ * (1 - 1 / 2 ^ 53) := by
              linarith [hstep]
          _ = (((k : ℚ) * (fldivD ⟨t, 0⟩ 125).toQ) * (1 - 1 / 2 ^ 53) ^ k
              + (fldivD ⟨t, 0⟩ 125).toQ) * (1 - 1 / 2 ^ 53) := by ring
          _ ≤ ((runFCounter t k).current.toQ + (fldivD ⟨t, 0⟩ 125).toQ) * (1 - 1 / 2 ^ 53) :=
              hmul
          _ ≤ (fladd (runFCounter t k).current (fldivD ⟨t, 0⟩ 125)).toQ := hfl

theorem fcounter_pos_cleared_by_126 (t : Int) (h1 : 1 ≤ t) (h53 : t < 2 ^ 53) :
    (runFCounter t 126).timerActive = false := by
  have hT : round53 t 0 = (⟨t, 0⟩ : Dyadic) := round53_small_pos t 0 h1 h53
  by_contra hfalse
  have hact : (runFCounter t 126).timerActive = true := by
    cases hb : (runFCounter t 126).timerActive
    · exact absurd hb hfalse
    · rfl
  have hactp : (runFCounter t 125).timerActive = true := by
    by_contra hf2
    have hstop : (runFCounter t 125).timerActive = false := by
      cases hb : (runFCounter t 125).timerActive
      · rfl
      · exact absurd hb hf2
    have : (runFCounter t 126).timerActive = false := by
      show (fCounterTick t (runFCounter t 125)).timerActive = false
      rw [fCounterTick_stopped t _ hstop]
      exact hstop
    rw [this] at hact
    exact Bool.false_ne_true hact
  obtain ⟨hnn, hbound⟩ := fcounter_lower_bound t h1 h53 126 hact
  have h126 : runFCounter t 126 = fCounterTick t (runFCounter t 125) := rfl
  rw [h126, fCounterTick_active t _ hactp, hT] at hact
  by_cases hle : Dyadic.le (⟨t, 0⟩ : Dyadic)
      (fladd (runFCounter t 125).current (fldivD ⟨t, 0⟩ 125)) = true
  · rw [if_pos hle] at hact
    exact absurd hact (by simp)
  · have hcur : (runFCounter t 126).current
        = fladd (runFCounter t 125).current (fldivD ⟨t, 0⟩ 125) := by
      rw [h126, fCounterTick_active t _ hactp, hT, if_neg hle]
    have hltQ : (runFCounter t 126).current.toQ < (t : ℚ) := by
      rw [hcur]
      have hnotle : ¬ ((⟨t, 0⟩ : Dyadic).toQ
          ≤ (fladd (runFCounter t 125).current (fldivD ⟨t, 0⟩ 125)).toQ) := by
        intro hcontra
        exact hle ((dyadic_le_iff _ _).mpr hcontra)
      have := lt_of_not_le hnotle
      calc (fladd (runFCounter t 125).current (fldivD ⟨t, 0⟩ 125)).toQ
          < (⟨t, 0⟩ : Dyadic).toQ := this
        _ = (t : ℚ) := toQ_int t
    -- the accumulated lower bound already reaches the target at tick 126
    have hsge := step_ge t h1
    have htQ : (0 : ℚ) < (t : ℚ) := by exact_mod_cast h1
    have hpow126 : (1 - 126 / 2 ^ 53 : ℚ) ≤ (1 - 1 / 2 ^ 53 : ℚ) ^ 126 := by
      have h := one_add_mul_le_pow (a := -(1 / 2 ^ 53 : ℚ)) (by norm_num) 126
      calc (1 - 126 / 2 ^ 53 : ℚ) = 1 + (126 : ℕ) * (-(1 / 2 ^ 53)) := by push_cast; ring
        _ ≤ (1 + (-(1 / 2 ^ 53))) ^ (126 : ℕ) := h
        _ = (1 - 1 / 2 ^ 53 : ℚ) ^ 126 := by ring_nf
    have hfinal : (t : ℚ) ≤ ((126 : ℚ) * (fldivD ⟨t, 0⟩ 125).toQ) * (1 - 1 / 2 ^ 53) ^ 126 := by
      have hs0 : ((t : ℚ) / 125) * (1 - 1 / 2 ^ 52) ≤ (fldivD ⟨t, 0⟩ 125).toQ := hsge
      have hp0 : (0 : ℚ) ≤ (1 - 1 / 2 ^ 53 : ℚ) ^ 126 := by positivity
      have hkey : (126 : ℚ) * (((t : ℚ) / 125) * (1 - 1 / 2 ^ 52)) * (1 - 126 / 2 ^ 53)
          ≤ ((126 : ℚ) * (fldivD ⟨t, 0⟩ 125).toQ) * (1 - 1 / 2 ^ 53) ^ 126 := by
        have hsn : 0 ≤ (fldivD ⟨t, 0⟩ 125).toQ := step_nonneg t h1
        have e1 : (126 : ℚ) * (((t : ℚ) / 125) * (1 - 1 / 2 ^ 52)) * (1 - 126 / 2 ^ 53)
            ≤ (126 : ℚ) * (fldivD ⟨t, 0⟩ 125).toQ * (1 - 126 / 2 ^ 53) := by
          nlinarith [hs0, htQ]
        have e2 : (126 : ℚ) * (fldivD ⟨t, 0⟩ 125).toQ * (1 - 126 / 2 ^ 53)
            ≤ (126 : ℚ) * (fldivD ⟨t, 0⟩ 125).toQ * (1 - 1 / 2 ^ 53) ^ 126 := by
          nlinarith [hpow126, hsn]
        linarith
      have hone : (t : ℚ) ≤ (126 : ℚ) * (((t : ℚ) / 125) * (1 - 1 / 2 ^ 52)) * (1 - 126 / 2 ^ 53) := by
        nlinarith [htQ]
      linarith
    have hb126 : ((126 : ℚ) * (fldivD ⟨t, 0⟩ 125).toQ) * (1 - 1 / 2 ^ 53) ^ 126
        ≤ (runFCounter t 126).current.toQ := by
      have := hbound
      push_cast at this
      exact this
    linarith


/-- Counterexample to C10 as stated: under the program's binary64
accumulation the 125 additions of the rounded step `fl(42 / 125)` sum to
`5910974510923761 * 2 ^ -47 = 41.99999999999989... < 42`, so after 125
ticks the timer for target 42 is still installed, contradicting the
claimed at-most-125-ticks bound. -/
theorem animateCounter_tick125_not_cleared_counterexample :
    (runFCounter 42 125).timerActive = true ∧
    (runFCounter 42 125).current = ⟨5910974510923761, -47⟩ := by
  constructor <;> decide

/-- C10 (amended): for integer targets the interval timer of
`animateCounter` settles, but the tick count depends on binary64
rounding: under the program's float accumulation targets 42 and 3400 are
still running after 125 ticks and clear the timer on tick 126, target
2500000 clears it on tick 125, target -7 clears it on the very first
tick; every positive target below 2 ^ 53 clears the timer within at most
126 ticks, and a cleared timer stays cleared forever; the at-most-125-
ticks bound of the original claim (and the first-tick bound for targets
at most 0) is instead the behaviour of exact rational accumulation of
the step `target / 125`. -/
theorem animateCounter_timer_settles :
    (runFCounter 42 125).timerActive = true ∧
    (runFCounter 42 126).timerActive = false ∧
    (runFCounter 3400 125).timerActive = true ∧
    (runFCounter 3400 126).timerActive = false ∧
    (runFCounter 2500000 125).timerActive = false ∧
    (runFCounter (-7) 1).timerActive = false ∧
    (∀ t : Int, 1 ≤ t → t < 2 ^ 53 → (runFCounter t 126).timerActive = false) ∧
    (∀ (t : Int) (n : Nat), (runFCounter t n).timerActive = false →
      ∀ m, n ≤ m → (runFCounter t m).timerActive = false) ∧
    (∀ t : Int, 0 < t → (runCounter t 125).timerActive = false) ∧
    (∀ t : Int, t ≤ 0 → (runCounter t 1).timerActive = false) ∧
    (∀ (t : Int) (n : Nat), 125 ≤ n → (runCounter t n).timerActive = false) := by
  refine ⟨by decide, by decide, by decide, by decide, by decide, by decide,
    fcounter_pos_cleared_by_126, fcounter_stays_stopped,
    counter_stops_pos, counter_stops_nonpos, ?_⟩
  intro t n hn
  rcases le_or_lt t 0 with ht | ht
  · exact counter_stays_stopped t 1 (counter_stops_nonpos t ht) n (by omega)
  · exact counter_stays_stopped t 125 (counter_stops_pos t ht) n hn

/-- Witness for C10 (amended): the binary64 timer for target 42, cleared
at tick 126, is still cleared at tick 300; the general binary64 bound is
exercised at target 1000003; the exact-accumulation conjuncts are
exercised at targets 7, -3 and 5. -/
theorem animateCounter_timer_settles_witness :
    (runFCounter 42 300).timerActive = false ∧
    (runFCounter 1000003 126).timerActive = false ∧
    (runCounter 7 125).timerActive = false ∧
    (runCounter (-3) 1).timerActive = false ∧
    (runCounter 5 200).timerActive = false :=
  ⟨animateCounter_timer_settles.2.2.2.2.2.2.2.1 42 126
      animateCounter_timer_settles.2.1 300 (by norm_num),
   animateCounter_timer_settles.2.2.2.2.2.2.1 1000003 (by norm_num) (by norm_num),
   animateCounter_timer_settles.2.2.2.2.2.2.2.2.1 7 (by norm_num),
   animateCounter_timer_settles.2.2.2.2.2.2.2.2.2.1 (-3) (by norm_num),
   animateCounter_timer_settles.2.2.2.2.2.2.2.2.2.2 5 200 (by norm_num)⟩

/-- State of the hero slider: `currentSlide` plus the `active` class marker
on each slide and on each dot. -/
structure SliderState where
  currentSlide : Nat
  slideActive : List Bool
  dotActive : List Bool
deriving DecidableEq, Repr

/-- Slider events: one firing of the 5000 ms interval timer, or a click on
the dot at a given index.  A dot click is just another event and neither
clears nor restarts the interval timer, so ticks keep arriving. -/
inductive SliderEvent where
  | tick : SliderEvent
  | dotClick : Nat → SliderEvent
deriving DecidableEq, Repr

/-- The `forEach` with index of `showSlide` (script.js:356-361):
`classList.toggle('active', i === index)` makes position `pos` active iff
it equals the shown index. -/
def toggleActiveGo (index pos : Nat) : List Bool → List Bool
  | [] => []
  | _ :: rest => decide (pos = index) :: toggleActiveGo index (pos + 1) rest

/-- Embedding of `showSlide` (script.js:355-362): every slide and every
dot carries the `active` class iff its position equals the shown index. -/
def showSlide (index : Nat) (s : SliderState) : SliderState :=
  { s with
    slideActive := toggleActiveGo index 0 s.slideActive,
    dotActive := toggleActiveGo index 0 s.dotActive }

/-- Embedding of the slider handlers (script.js:364-376): a timer tick
advances `currentSlide` by one modulo the slide count and shows it; a dot
click sets `currentSlide` to the dot's index and shows it. -/
def stepSlider (e : SliderEvent) (s : SliderState) : SliderState :=
  match e with
  | .tick => showSlide ((s.currentSlide + 1) % s.slideActive.length)
      { s with currentSlide := (s.currentSlide + 1) % s.slideActive.length }
  | .dotClick i => showSlide i { s with currentSlide := i }

/-- Run a sequence of slider events. -/
def runSlider (es : List SliderEvent) (s : SliderState) : SliderState :=
  es.foldl (fun s e => stepSlider e s) s

/-- A three-slide slider as initialised by markup with slide 0 active. -/
def slider3 : SliderState := ⟨0, [true, false, false], [true, false, false]⟩

theorem toggleActiveGo_length (index : Nat) :
    ∀ (pos : Nat) (l : List Bool), (toggleActiveGo index pos l).length = l.length := by
  intro pos l
  induction l generalizing pos with
  | nil => rfl
  | cons b rest ih => simp [toggleActiveGo, ih]

/-- C7: a timer tick advances the current index by one modulo the slide
count; a dot click immediately sets the current index to that dot,
whatever the state (so whatever the timer phase); a dot click does not
touch the timer, so the next tick advances from the newly chosen index;
and the concrete three-slide scenario: two ticks from index 0 reach index
2 with the matching slide and dot markers, a later click on dot 1 sets
index 1, and the following tick advances to index 2. -/
theorem initSlider_tick_and_dot_click (s : SliderState) (i : Nat) :
    (stepSlider SliderEvent.tick s).currentSlide
      = (s.currentSlide + 1) % s.slideActive.length ∧
    (stepSlider (SliderEvent.dotClick i) s).currentSlide = i ∧
    (stepSlider SliderEvent.tick (stepSlider (SliderEvent.dotClick i) s)).currentSlide
      = (i + 1) % s.slideActive.length ∧
    (runSlider [SliderEvent.tick, SliderEvent.tick] slider3).currentSlide = 2 ∧
    (runSlider [SliderEvent.tick, SliderEvent.tick] slider3).slideActive
      = [false, false, true] ∧
    (runSlider [SliderEvent.tick, SliderEvent.tick] slider3).dotActive
      = [false, false, true] ∧
    (runSlider [SliderEvent.tick, SliderEvent.tick, SliderEvent.dotClick 1]
      slider3).currentSlide = 1 ∧
    (runSlider [SliderEvent.tick, SliderEvent.tick, SliderEvent.dotClick 1]
      slider3).slideActive = [false, true, false] ∧
    (runSlider [SliderEvent.tick, SliderEvent.tick, SliderEvent.dotClick 1,
      SliderEvent.tick] slider3).currentSlide = 2 := by
  refine ⟨rfl, rfl, ?_, by decide, by decide, by decide, by decide, by decide, by decide⟩
  show ((stepSlider (SliderEvent.dotClick i) s).currentSlide + 1)
      % (stepSlider (SliderEvent.dotClick i) s).slideActive.length
      = (i + 1) % s.slideActive.length
  simp [stepSlider, showSlide, toggleActiveGo_length]

/-- The DOM elements each controller queries at startup (presence flags
and counts), together with the mutable page state the controllers can
touch at startup: the accessibility state, the list of registered event
listeners, whether fade elements got their initial styles, which observers
were installed, whether the slider interval was installed, and whether the
trailing `sr-only` style element was appended. -/
structure Page where
  mobileMenuBtn : Bool
  mobileMenu : Bool
  mobileClose : Bool
  dropdownCount : Nat
  searchToggle : Bool
  searchOverlay : Bool
  searchClose : Bool
  tabGroupSizes : List Nat
  counterCount : Nat
  fadeCount : Nat
  mainHeader : Bool
  heroSlider : Bool
  slideCount : Nat
  dotCount : Nat
  access : AccessState
  listeners : List String
  fadeStyled : Bool
  counterObserved : Bool
  fadeObserved : Bool
  sliderTimer : Bool
  styleAppended : Bool
deriving DecidableEq, Repr

/-- Append newly registered event listeners to the page record. -/
def addListeners (names : List String) (p : Page) : Page :=
  { p with listeners := p.listeners ++ names }

/-- A page with none of the optional markup, nothing stored and nothing
yet registered. -/
def emptyPage : Page :=
  { mobileMenuBtn := false, mobileMenu := false, mobileClose := false,
    dropdownCount := 0, searchToggle := false, searchOverlay := false,
    searchClose := false, tabGroupSizes := [], counterCount := 0,
    fadeCount := 0, mainHeader := false, heroSlider := false,
    slideCount := 0, dotCount := 0, access := AccessState.default,
    listeners := [], fadeStyled := false, counterObserved := false,
    fadeObserved := false, sliderTimer := false, styleAppended := false }

/-- Page-level embedding of `initAccessibility` (script.js:20-36): the
document root and body always exist, so this controller needs no guard;
it only applies the persisted preferences. -/
def initAccessibilityP (p : Page) : Except String Page :=
  Except.ok { p with access := initAccessibility p.access }

/-- Embedding of `initNavigation` startup (script.js:98-160): the menu
listeners are registered only when both the menu button and the menu
exist (the close listener additionally needs the close button); each
dropdown with a trigger and a menu gets a keydown listener.  No element
is dereferenced outside these guards, so no error can be raised. -/
def initNavigationP (p : Page) : Except String Page :=
  let p1 :=
    if p.mobileMenuBtn && p.mobileMenu then
      let a := addListeners ["click:mobile-menu-btn"] p
      let b := if p.mobileClose then addListeners ["click:mobile-close"] a else a
      addListeners ["keydown:document-escape", "click:mobile-menu-backdrop"] b
    else p
  Except.ok (addListeners (List.replicate p1.dropdownCount "keydown:dropdown-trigger") p1)

/-- Embedding of `initSearch` startup (script.js:165-206): the input is
read through optional chaining (no error when the overlay is absent), and
all listeners are registered only when both the toggle and the overlay
exist (the close listener additionally needs the close button). -/
def initSearchP (p : Page) : Except String Page :=
  if p.searchToggle && p.searchOverlay then
    let a := addListeners ["click:search-toggle"] p
    let b := if p.searchClose then addListeners ["click:search-close"] a else a
    Except.ok (addListeners ["keydown:document-escape", "click:search-backdrop"] b)
  else Except.ok p

/-- Embedding of `initTabs` startup (script.js:211-252): each tab of each
group gets a click and a keydown listener; an empty query result leaves
the page untouched. -/
def initTabsP (p : Page) : Except String Page :=
  Except.ok (addListeners
    (p.tabGroupSizes.foldl
      (fun acc k => acc ++ List.replicate k "click:tab" ++ List.replicate k "keydown:tab")
      []) p)

/-- Embedding of `initAnimations` startup (script.js:257-295) in a browser
where `IntersectionObserver` exists: counters are observed only when at
least one `[data-count]` element exists; fade elements get their initial
styles and an observer only when at least one exists. -/
def initAnimationsP (p : Page) : Except String Page :=
  let p1 := if p.counterCount ≠ 0 then { p with counterObserved := true } else p
  let p2 :=
    if p1.fadeCount ≠ 0 then { p1 with fadeStyled := true, fadeObserved := true } else p1
  Except.ok p2

/-- Embedding of `initHeaderScroll` startup (script.js:324-343): the
scroll listener is registered only when the header exists. -/
def initHeaderScrollP (p : Page) : Except String Page :=
  if p.mainHeader then Except.ok (addListeners ["scroll:window"] p) else Except.ok p

/-- Embedding of `initSlider` startup (script.js:348-377): with at most
one slide it returns before installing anything; otherwise it installs the
interval timer and a click listener per dot. -/
def initSliderP (p : Page) : Except String Page :=
  if p.slideCount ≤ 1 then Except.ok p
  else Except.ok (addListeners (List.replicate p.dotCount "click:dot")
    { p with sliderTimer := true })

/-- The top-level slider guard (script.js:380-382): `initSlider` runs only
when a `.hero-slider` element exists. -/
def sliderGuardP (p : Page) : Except String Page :=
  if p.heroSlider then initSliderP p else Except.ok p

/-- The whole startup sequence: the `DOMContentLoaded` handler
(script.js:6-14) followed by the top-level slider guard and the
unconditional `sr-only` style append (script.js:394-408). -/
def initAllP (p : Page) : Except String Page := do
  let p ← initAccessibilityP p
  let p ← initNavigationP p
  let p ← initSearchP p
  let p ← initTabsP p
  let p ← initAnimationsP p
  let p ← initHeaderScrollP p
  let p ← sliderGuardP p
  Except.ok { p with styleAppended := true }

theorem exceptOkBind {α β : Type} (a : α) (f : α → Except String β) :
    (Except.ok a >>= f : Except String β) = f a := rfl

theorem initNavigationP_ok (p : Page) : ∃ q, initNavigationP p = Except.ok q :=
  ⟨_, rfl⟩

theorem initSearchP_ok (p : Page) : ∃ q, initSearchP p = Except.ok q := by
  rw [initSearchP]
  split
  · exact ⟨_, rfl⟩
  · exact ⟨_, rfl⟩

theorem initTabsP_ok (p : Page) : ∃ q, initTabsP p = Except.ok q :=
  ⟨_, rfl⟩

theorem initAnimationsP_ok (p : Page) : ∃ q, initAnimationsP p = Except.ok q :=
  ⟨_, rfl⟩

theorem initHeaderScrollP_ok (p : Page) : ∃ q, initHeaderScrollP p = Except.ok q := by
  rw [initHeaderScrollP]
  split
  · exact ⟨_, rfl⟩
  · exact ⟨_, rfl⟩

theorem initSliderP_ok (p : Page) : ∃ q, initSliderP p = Except.ok q := by
  rw [initSliderP]
  split
  · exact ⟨_, rfl⟩
  · exact ⟨_, rfl⟩

theorem sliderGuardP_ok (p : Page) : ∃ q, sliderGuardP p = Except.ok q := by
  rw [sliderGuardP]
  split
  · exact initSliderP_ok p
  · exact ⟨_, rfl⟩

/-- C8: every controller whose required DOM elements are absent returns
normally and leaves the page exactly as it was (the controller is
inactive), and the whole startup sequence returns normally on every page,
in particular on one with no slider markup, no menu button, no search
overlay and no header. -/
theorem controllers_inactive_when_elements_absent :
    (∀ p : Page, (p.mobileMenuBtn = false ∨ p.mobileMenu = false) →
      p.dropdownCount = 0 → initNavigationP p = Except.ok p) ∧
    (∀ p : Page, (p.searchToggle = false ∨ p.searchOverlay = false) →
      initSearchP p = Except.ok p) ∧
    (∀ p : Page, p.tabGroupSizes = [] → initTabsP p = Except.ok p) ∧
    (∀ p : Page, p.counterCount = 0 → p.fadeCount = 0 →
      initAnimationsP p = Except.ok p) ∧
    (∀ p : Page, p.mainHeader = false → initHeaderScrollP p = Except.ok p) ∧
    (∀ p : Page, p.slideCount ≤ 1 → initSliderP p = Except.ok p) ∧
    (∀ p : Page, p.heroSlider = false → sliderGuardP p = Except.ok p) ∧
    (∀ p : Page, ∃ q : Page, initAllP p = Except.ok q) := by
  refine ⟨?_, ?_, ?_, ?_, ?_, ?_, ?_, ?_⟩
  · intro p hmenu hdrop
    have hguard : ¬((p.mobileMenuBtn && p.mobileMenu) = true) := by
      rcases hmenu with h | h <;> simp [h]
    have hrep : List.replicate p.dropdownCount "keydown:dropdown-trigger" = [] := by
      rw [hdrop]
      rfl
    simp only [initNavigationP, if_neg hguard, hrep, addListeners, List.append_nil]
  · intro p hsearch
    have hguard : (p.searchToggle && p.searchOverlay) = false := by
      rcases hsearch with h | h <;> simp [h]
    simp [initSearchP, hguard]
  · intro p htabs
    have hfold : p.tabGroupSizes.foldl
        (fun acc k => acc ++ List.replicate k "click:tab" ++ List.replicate k "keydown:tab")
        [] = [] := by
      rw [htabs]
      rfl
    simp only [initTabsP, hfold, addListeners, List.append_nil]
  · intro p hc hf
    simp [initAnimationsP, hc, hf]
  · intro p hh
    simp [initHeaderScrollP, hh]
  · intro p hs
    simp [initSliderP, hs]
  · intro p hg
    simp [sliderGuardP, hg]
  · intro p
    obtain ⟨p2, h2⟩ := initNavigationP_ok { p with access := initAccessibility p.access }
    obtain ⟨p3, h3⟩ := initSearchP_ok p2
    obtain ⟨p4, h4⟩ := initTabsP_ok p3
    obtain ⟨p5, h5⟩ := initAnimationsP_ok p4
    obtain ⟨p6, h6⟩ := initHeaderScrollP_ok p5
    obtain ⟨p7, h7⟩ := sliderGuardP_ok p6
    refine ⟨{ p7 with styleAppended := true }, ?_⟩
    simp only [initAllP, initAccessibilityP, exceptOkBind, h2, h3, h4, h5, h6, h7]

/-- Witness for C8: on the empty page every controller is inactive and
startup returns normally. -/
theorem controllers_inactive_when_elements_absent_witness :
    initNavigationP emptyPage = Except.ok emptyPage ∧
    initSearchP emptyPage = Except.ok emptyPage ∧
    initTabsP emptyPage = Except.ok emptyPage ∧
    initAnimationsP emptyPage = Except.ok emptyPage ∧
    initHeaderScrollP emptyPage = Except.ok emptyPage ∧
    initSliderP emptyPage = Except.ok emptyPage ∧
    sliderGuardP emptyPage = Except.ok emptyPage ∧
    ∃ q : Page, initAllP emptyPage = Except.ok q :=
  ⟨controllers_inactive_when_elements_absent.1 emptyPage (Or.inl rfl) rfl,
   controllers_inactive_when_elements_absent.2.1 emptyPage (Or.inl rfl),
   controllers_inactive_when_elements_absent.2.2.1 emptyPage rfl,
   controllers_inactive_when_elements_absent.2.2.2.1 emptyPage rfl rfl,
   controllers_inactive_when_elements_absent.2.2.2.2.1 emptyPage rfl,
   controllers_inactive_when_elements_absent.2.2.2.2.2.1 emptyPage (by decide),
   controllers_inactive_when_elements_absent.2.2.2.2.2.2.1 emptyPage rfl,
   controllers_inactive_when_elements_absent.2.2.2.2.2.2.2 emptyPage⟩
